import Mathlib

/-!
Verification of the session & daemon lifecycle manager of the
agent-browser CLI.

The development shallowly embeds the Rust sources:
  * cli/src/session.rs : session classifier ( is_uuid), registry scan
    ( find_local_sessions), status report ( show_local_session_info) and
    termination ( kill_local_session);
  * cli/src/main.rs : the cloud-bridge command envelopes and the
    `session info` / `session kill` / `session debug` dispatch.

Rust strings are modelled as lists of characters ( `Str`).  The
filesystem state a run observes (the temp directory listing, file
contents, process liveness and signal acceptance) is packaged in
`RegistryState`; the effectful functions are modelled as pure functions
from that state to a result plus the performed effects (signals sent,
files removed).
-/

/-- Rust `&str` / `String`, modelled as a list of characters. -/
abbrev Str := List Char

/-- Rust `char::is_ascii_hexdigit`: `0-9`, `a-f`, `A-F`. -/
def isAsciiHexDigit (c : Char) : Bool :=
  ( '0' ≤ c && c ≤ '9') || ( 'a' ≤ c && c ≤ 'f') || ( 'A' ≤ c && c ≤ 'F')

/-- Rust `s.split('-')`: splits at every hyphen, keeping empty groups
(`"".split('-')` yields one empty group). -/
def splitOnDash : Str → List Str
  | [] => [[]]
  | c :: rest =>
    match splitOnDash rest with
    | [] => [[]]
    | p :: ps => if c = '-' then [] :: p :: ps else (c :: p) :: ps

/-- `session.rs is_uuid`: 36 characters, five hyphen-separated groups of
lengths 8-4-4-4-12, all characters ASCII hex digits. -/
def is_uuid (s : Str) : Bool :=
  if s.length ≠ 36 then false
  else
    let parts := splitOnDash s
    if parts.length ≠ 5 then false
    else
      let expectedLens : List Nat := [8, 4, 4, 4, 12]
      (parts.zip expectedLens).all fun pl =>
        decide (pl.1.length = pl.2) && pl.1.all isAsciiHexDigit

/-- The Session Classifier's two verdicts. -/
inductive Classification
  | Local
  | Remote
deriving DecidableEq

/-- `classify(token)`: Remote when the token is UUID-shaped, else Local
(this is how main.rs consumes is_uuid). -/
def classify (s : Str) : Classification :=
  if is_uuid s then Classification.Remote else Classification.Local

/-- Modelled from the spec's words, for comparison with `is_uuid`: the
token is exactly 36 characters, splits on the hyphen into exactly five
groups of lengths 8, 4, 4, 4, 12, and every character of every group is
a hexadecimal digit. -/
def specRemoteShaped (s : Str) : Prop :=
  s.length = 36 ∧
  ∃ g1 g2 g3 g4 g5 : Str,
    splitOnDash s = [g1, g2, g3, g4, g5] ∧
    g1.length = 8 ∧ g2.length = 4 ∧ g3.length = 4 ∧ g4.length = 4 ∧
    g5.length = 12 ∧
    ∀ g ∈ splitOnDash s, ∀ c ∈ g, isAsciiHexDigit c = true

/-- ASCII approximation of Rust `char::is_whitespace` (the recorded pid
texts are ASCII). -/
def isWsChar (c : Char) : Bool :=
  c.isWhitespace

/-- Rust `str::trim`: strip whitespace from both ends. -/
def trimStr (s : Str) : Str :=
  ((s.dropWhile isWsChar).reverse.dropWhile isWsChar).reverse

/-- Decimal value of a digit list (accumulating left to right). -/
def digitsToNat (ds : Str) : Nat :=
  ds.foldl (fun acc c => acc * 10 + (c.toNat - 48)) 0

/-- Rust `str::parse::<i32>`: optional sign, at least one ASCII digit,
only digits, and the value must fit in a 32-bit signed integer. -/
def parseI32 (s : Str) : Option Int :=
  let signDigits : Int × Str :=
    match s with
    | '+' :: rest => (1, rest)
    | '-' :: rest => (-1, rest)
    | _ => (1, s)
  let ds := signDigits.2
  if ds = [] then none
  else if ds.all Char.isDigit then
    let v : Int := signDigits.1 * (digitsToNat ds : Nat)
    if -(2 ^ 31) ≤ v ∧ v ≤ 2 ^ 31 - 1 then some v else none
  else none

/-- Rust `s.strip_prefix(p)`. -/
def dropPre? (s p : Str) : Option Str :=
  if p.isPrefixOf s then some (s.drop p.length) else none

/-- Rust `s.strip_suffix(p)`. -/
def dropSuf? (s p : Str) : Option Str :=
  if p.isSuffixOf s then some (s.take (s.length - p.length)) else none

/-- The liveness-record filename `agent-browser-<name>.pid`. -/
def pidFileName (name : Str) : Str :=
  ( "agent-browser-").toList ++ name ++ ( ".pid").toList

/-- The socket-endpoint filename `agent-browser-<name>.sock`. -/
def sockFileName (name : Str) : Str :=
  ( "agent-browser-").toList ++ name ++ ( ".sock").toList

/-- The filename filter of the registry scan:
`name.starts_with("agent-browser-") && name.ends_with(".pid")`. -/
def isRecordFile (f : Str) : Bool :=
  (( "agent-browser-").toList).isPrefixOf f &&
    (( ".pid").toList).isSuffixOf f

/-- The session name extracted from a record filename:
`strip_prefix("agent-browser-").and_then(strip_suffix(".pid")).unwrap_or("")`. -/
def recordNameOf (f : Str) : Str :=
  ((dropPre? f (( "agent-browser-").toList)).bind
    (fun s => dropSuf? s (( ".pid").toList))).getD []

/-- The filesystem and process world one CLI invocation observes:
whether `read_dir` on the temp directory succeeds, the directory's
entries (filename and readable content, `none` when `read_to_string`
fails), the liveness probe `is_process_running`, and whether
`kill(pid, SIGTERM)` returns 0. -/
structure RegistryState where
  dirReadable : Bool
  files : List (Str × Option Str)
  alive : Int → Bool
  termSignalAccepted : Int → Bool

/-- First directory entry with the given filename. -/
def findEntry (st : RegistryState) (f : Str) : Option (Str × Option Str) :=
  st.files.find? (fun e => e.1 == f)

/-- Rust `path.exists()` inside the temp directory. -/
def fileExists (st : RegistryState) (f : Str) : Bool :=
  (findEntry st f).isSome

/-- Rust `fs::read_to_string(path).ok()`: `none` when the file is
absent or unreadable. -/
def readFile (st : RegistryState) (f : Str) : Option Str :=
  (findEntry st f).bind Prod.snd

/-- One local session as reported by the registry scan
(`session.rs LocalSession`; the socket path itself is determined by the
name, so only its existence bit is kept). -/
structure LocalSession where
  name : Str
  pid : Int
  running : Bool
  sockExists : Bool
deriving DecidableEq

/-- The per-entry body of the `find_local_sessions` loop: filename
filter, session-name extraction (skip when empty), pid read and parse
(skip on failure), then liveness probe and socket-existence check.
`alive` is the liveness probe and `sockEx` the socket existence check
of the ambient registry state. -/
def entryToSession (alive : Int → Bool) (sockEx : Str → Bool)
    (e : Str × Option Str) : Option LocalSession :=
  if isRecordFile e.1 then
    if recordNameOf e.1 = [] then none
    else
      match e.2 with
      | none => none
      | some content =>
        match parseI32 (trimStr content) with
        | none => none
        | some pid =>
          some ⟨recordNameOf e.1, pid, alive pid,
            sockEx (sockFileName (recordNameOf e.1))⟩
  else none

/-- `session.rs find_local_sessions`: scan the temp directory (empty
result when `read_dir` fails), keep the well-formed liveness records,
and sort by session name (`sort_by(a.name.cmp(b.name))`). -/
def find_local_sessions (st : RegistryState) : List LocalSession :=
  (if st.dirReadable then
    st.files.filterMap
      (entryToSession st.alive (fun f => fileExists st f))
  else []).mergeSort (fun a b => decide (a.name ≤ b.name))

/-- Result of `show_local_session_info`: either the not-found error
path (printed and exit 1) or the reported session fields. -/
inductive StatusResult
  | notFound
  | status (name : Str) (pid : Int) (running : Bool) (sockExists : Bool)
deriving DecidableEq

/-- `session.rs show_local_session_info`: not-found when the pid file
does not exist; otherwise the pid is the parsed file content with
`unwrap_or(0)`, `running` probes that pid, and the socket existence is
reported alongside. -/
def show_local_session_info (st : RegistryState) (name : Str) :
    StatusResult :=
  if ¬ fileExists st (pidFileName name) then StatusResult.notFound
  else
    let pid := ((readFile st (pidFileName name)).bind
      (fun s => parseI32 (trimStr s))).getD 0
    StatusResult.status name pid (st.alive pid)
      (fileExists st (sockFileName name))

/-- Result of `kill_local_session`: not-found, pid-file read failure,
kill rejected with the process still alive, or success. -/
inductive KillResult
  | notFound
  | pidReadFailed
  | killFailed (pid : Int)
  | killed (name : Str) (pid : Int)
deriving DecidableEq

/-- `kill_local_session`'s outcome plus its effects: the pids that were
sent SIGTERM and the files that were removed, in order. -/
structure KillOutcome where
  result : KillResult
  signaled : List Int
  removed : List Str
deriving DecidableEq

/-- `session.rs kill_local_session` (unix path): exit not-found when
the pid file does not exist; exit with a read error when its content
does not parse; send SIGTERM; when the signal is rejected and the
process is still alive, exit before any cleanup; otherwise remove the
pid file and the socket file and report success. -/
def kill_local_session (st : RegistryState) (name : Str) : KillOutcome :=
  if ¬ fileExists st (pidFileName name) then
    ⟨KillResult.notFound, [], []⟩
  else
    match (readFile st (pidFileName name)).bind
        (fun s => parseI32 (trimStr s)) with
    | none => ⟨KillResult.pidReadFailed, [], []⟩
    | some pid =>
      if st.termSignalAccepted pid = false && st.alive pid then
        ⟨KillResult.killFailed pid, [pid], []⟩
      else
        ⟨KillResult.killed name pid, [pid],
          [pidFileName name, sockFileName name]⟩

/-- A Command Envelope as built by `main.rs` for the cloud bridge:
correlation id, action name, optional `sessionId` field. -/
structure CommandEnvelope where
  id : Str
  action : Str
  sessionId : Option Str
deriving DecidableEq

/-- The envelope sent by `main.rs try_get_cloud_sessions`. -/
def try_get_cloud_sessions_cmd (cid : Str) : CommandEnvelope :=
  ⟨cid, ( "bb_session_list").toList, none⟩

/-- The envelope sent by `main.rs handle_cloud_session_info`. -/
def handle_cloud_session_info_cmd (cid sid : Str) : CommandEnvelope :=
  ⟨cid, ( "bb_session_get").toList, some sid⟩

/-- The envelope sent by `main.rs handle_cloud_session_stop`. -/
def handle_cloud_session_stop_cmd (cid sid : Str) : CommandEnvelope :=
  ⟨cid, ( "bb_session_stop").toList, some sid⟩

/-- The envelope sent by `main.rs handle_cloud_session_debug`. -/
def handle_cloud_session_debug_cmd (cid sid : Str) : CommandEnvelope :=
  ⟨cid, ( "bb_session_debug").toList, some sid⟩

/-- Where a `session …` subcommand routes its token. -/
inductive SessionRoute
  | cloudInfo (id : Str)
  | localInfo (id : Str)
  | cloudStop (id : Str)
  | localKill (id : Str)
  | cloudDebug (id : Str)
deriving DecidableEq

/-- `main.rs`, `Some("info")` arm: cloud when UUID-shaped, else local. -/
def route_session_info (id : Str) : SessionRoute :=
  if is_uuid id then SessionRoute.cloudInfo id else SessionRoute.localInfo id

/-- `main.rs`, `Some("kill")` arm: cloud stop when UUID-shaped, else
local kill. -/
def route_session_kill (id : Str) : SessionRoute :=
  if is_uuid id then SessionRoute.cloudStop id else SessionRoute.localKill id

/-- `main.rs`, `Some("debug")` arm: always the cloud debug handler,
without consulting the classifier. -/
def route_session_debug (id : Str) : SessionRoute :=
  SessionRoute.cloudDebug id

/-! ## Helper lemmas -/

/-- A readable file exists. -/
theorem readFile_isSome {st : RegistryState} {f c : Str}
    (h : readFile st f = some c) : fileExists st f = true := by
  unfold readFile at h
  unfold fileExists
  cases he : findEntry st f with
  | none => rw [he] at h; simp at h
  | some e => simp [he]

/-! ## Claims about the cloud bridge and dispatch -/

/-- C3 (counterexample): the envelopes built for the four cloud-bridge
operations do not carry the action names listed in the spec's
external-interface section. -/
theorem cloud_bridge_action_names_cex :
    (try_get_cloud_sessions_cmd (( "1")).toList).action ≠
        (( "list-remote-sessions")).toList ∧
    (handle_cloud_session_info_cmd (( "1")).toList (( "abc")).toList).action ≠
        (( "get-remote-session")).toList ∧
    (handle_cloud_session_stop_cmd (( "1")).toList (( "abc")).toList).action ≠
        (( "stop-remote-session")).toList ∧
    (handle_cloud_session_debug_cmd (( "1")).toList (( "abc")).toList).action ≠
        (( "debug-remote-session")).toList := by
  decide

/-- C3 (amended): listing remote sessions sends action `bb_session_list`,
getting one sends `bb_session_get`, stopping one sends
`bb_session_stop`, and fetching debug URLs sends `bb_session_debug`,
the three per-session ones carrying the token as `sessionId`. -/
theorem cloud_bridge_action_names (cid sid : Str) :
    try_get_cloud_sessions_cmd cid =
      ⟨cid, (( "bb_session_list")).toList, none⟩ ∧
    handle_cloud_session_info_cmd cid sid =
      ⟨cid, (( "bb_session_get")).toList, some sid⟩ ∧
    handle_cloud_session_stop_cmd cid sid =
      ⟨cid, (( "bb_session_stop")).toList, some sid⟩ ∧
    handle_cloud_session_debug_cmd cid sid =
      ⟨cid, (( "bb_session_debug")).toList, some sid⟩ :=
  ⟨rfl, rfl, rfl, rfl⟩

/-- C10: `session debug` forwards its token to the cloud debug action
unconditionally, never consulting the classifier, while `session info`
and `session kill` route to the local registry exactly when the token
is not UUID-shaped. -/
theorem session_debug_bypasses_classifier (id cid : Str) :
    route_session_debug id = SessionRoute.cloudDebug id ∧
    (handle_cloud_session_debug_cmd cid id).action =
      (( "bb_session_debug")).toList ∧
    (handle_cloud_session_debug_cmd cid id).sessionId = some id ∧
    (is_uuid id = false →
      route_session_info id = SessionRoute.localInfo id ∧
      route_session_kill id = SessionRoute.localKill id) ∧
    (is_uuid id = true →
      route_session_info id = SessionRoute.cloudInfo id ∧
      route_session_kill id = SessionRoute.cloudStop id) := by
  refine ⟨rfl, rfl, rfl, ?_, ?_⟩ <;> intro h <;>
    simp [route_session_info, route_session_kill, h]

/-- C10 (witness): a non-UUID token still goes to the cloud debug
handler, while info/kill on the same token stay local. -/
theorem session_debug_bypasses_classifier_witness :
    route_session_debug (( "foo")).toList =
      SessionRoute.cloudDebug (( "foo")).toList ∧
    route_session_info (( "foo")).toList =
      SessionRoute.localInfo (( "foo")).toList ∧
    route_session_kill (( "foo")).toList =
      SessionRoute.localKill (( "foo")).toList := by
  have h := session_debug_bypasses_classifier (( "foo")).toList
    (( "1")).toList
  exact ⟨h.1, (h.2.2.2.1 (by decide)).1, (h.2.2.2.1 (by decide)).2⟩

/-! ## Claims about termination -/

/-- C7: with no liveness record, terminate reports NotFound, signals no
process and removes no file. -/
theorem kill_no_record_not_found (st : RegistryState) (name : Str)
    (h : fileExists st (pidFileName name) = false) :
    kill_local_session st name = ⟨KillResult.notFound, [], []⟩ := by
  simp [kill_local_session, h]

/-- C7 (witness): terminate on an empty registry. -/
theorem kill_no_record_not_found_witness :
    kill_local_session ⟨true, [], fun _ => true, fun _ => true⟩
      (( "foo")).toList = ⟨KillResult.notFound, [], []⟩ :=
  kill_no_record_not_found ⟨true, [], fun _ => true, fun _ => true⟩
    (( "foo")).toList (by decide)

/-- C9: when the record file is present but its content does not parse
as a decimal integer, terminate fails with the distinct read-error
outcome, signals no process, and removes neither file. -/
theorem kill_unparsable_pid_read_failed (st : RegistryState) (name c : Str)
    (hc : readFile st (pidFileName name) = some c)
    (hp : parseI32 (trimStr c) = none) :
    kill_local_session st name = ⟨KillResult.pidReadFailed, [], []⟩ := by
  simp [kill_local_session, readFile_isSome hc, hc, hp]

/-- C9 (witness): a record holding non-numeric text. -/
theorem kill_unparsable_pid_read_failed_witness :
    kill_local_session
      ⟨true, [((( "agent-browser-foo.pid")).toList, some (( "abc")).toList)],
        fun _ => true, fun _ => true⟩ (( "foo")).toList =
      ⟨KillResult.pidReadFailed, [], []⟩ :=
  kill_unparsable_pid_read_failed
    ⟨true, [((( "agent-browser-foo.pid")).toList, some (( "abc")).toList)],
      fun _ => true, fun _ => true⟩
    (( "foo")).toList (( "abc")).toList (by decide) (by decide)

/-- C2 (counterexample): it is not the case that, whenever a liveness
record with a parsable pid exists, both cleanup removals are attempted
regardless of the termination signal's outcome: on the rejected-signal
path with the process still alive, nothing is removed. -/
theorem kill_cleanup_claim_cex :
    ¬ ∀ (st : RegistryState) (name c : Str) (pid : Int),
        readFile st (pidFileName name) = some c →
        parseI32 (trimStr c) = some pid →
        pidFileName name ∈ (kill_local_session st name).removed ∧
        sockFileName name ∈ (kill_local_session st name).removed := by
  intro h
  have hc := h ⟨true, [((( "agent-browser-foo.pid")).toList,
      some (( "4242")).toList)], fun _ => true, fun _ => false⟩
    (( "foo")).toList (( "4242")).toList 4242 (by decide) (by decide)
  exact absurd hc (by decide)

/-- C2 (amended): the two cleanup removals happen exactly on the
success outcome; on the TerminationFailed path (and on the NotFound and
read-failure paths) no removal is attempted. -/
theorem kill_cleanup_exactly_on_success (st : RegistryState) (name : Str) :
    (kill_local_session st name).removed =
      match (kill_local_session st name).result with
      | KillResult.killed _ _ => [pidFileName name, sockFileName name]
      | _ => [] := by
  unfold kill_local_session
  split
  · rfl
  · split
    · rfl
    · split <;> rfl

/-! ## Claims about status reporting -/

/-- C4: a liveness record with a parsable pid whose process is dead is
reported as a session with that pid and running = false, not as
NotFound or an error. -/
theorem statusOf_dead_pid_reports_not_running
    (st : RegistryState) (name c : Str) (pid : Int)
    (hc : readFile st (pidFileName name) = some c)
    (hp : parseI32 (trimStr c) = some pid)
    (ha : st.alive pid = false) :
    show_local_session_info st name =
      StatusResult.status name pid false
        (fileExists st (sockFileName name)) := by
  simp [show_local_session_info, readFile_isSome hc, hc, hp, ha]

/-- C4 (witness): the spec's scenario, `agent-browser-foo.pid`
containing 4242 with pid 4242 dead. -/
theorem statusOf_dead_pid_reports_not_running_witness :
    show_local_session_info
      ⟨true, [((( "agent-browser-foo.pid")).toList, some (( "4242")).toList)],
        fun _ => false, fun _ => false⟩ (( "foo")).toList =
      StatusResult.status (( "foo")).toList 4242 false false := by
  have h := statusOf_dead_pid_reports_not_running
    ⟨true, [((( "agent-browser-foo.pid")).toList, some (( "4242")).toList)],
      fun _ => false, fun _ => false⟩
    (( "foo")).toList (( "4242")).toList 4242 (by decide) (by decide) rfl
  rw [h]
  decide

/-! ## The Session Classifier -/

/-- C1: a token is classified Remote exactly when it has the 36-character
8-4-4-4-12 hyphen-separated all-hex shape; every other token is Local. -/
theorem classify_remote_iff_spec_shape (s : Str) :
    classify s = Classification.Remote ↔ specRemoteShaped s := by
  have hiff : is_uuid s = true ↔ specRemoteShaped s := by
    simp only [is_uuid]
    split_ifs with h1 h2
    · simp only [Bool.false_eq_true, false_iff]
      intro hsp
      exact h1 hsp.1
    · simp only [Bool.false_eq_true, false_iff]
      rintro ⟨-, g1, g2, g3, g4, g5, hp, -⟩
      exact h2 (by rw [hp]; rfl)
    · have h36 : s.length = 36 := not_not.mp h1
      obtain ⟨g1, g2, g3, g4, g5, hp⟩ :
          ∃ a b c d e : Str, splitOnDash s = [a, b, c, d, e] := by
        rcases hsp : splitOnDash s with
          _ | ⟨a, _ | ⟨b, _ | ⟨c, _ | ⟨d, _ | ⟨e, _ | ⟨f, t⟩⟩⟩⟩⟩⟩ <;>
          simp only [hsp, List.length_cons, List.length_nil] at h2 <;>
          first
            | exact ⟨a, b, c, d, e, rfl⟩
            | omega
      unfold specRemoteShaped
      rw [hp]
      constructor
      · intro hall
        simp only [List.zip_cons_cons, List.zip_nil_left, List.all_cons,
          List.all_nil, Bool.and_true, Bool.and_eq_true,
          decide_eq_true_eq] at hall
        obtain ⟨⟨hl1, hx1⟩, ⟨hl2, hx2⟩, ⟨hl3, hx3⟩, ⟨hl4, hx4⟩,
          ⟨hl5, hx5⟩⟩ := hall
        refine ⟨h36, g1, g2, g3, g4, g5, rfl, hl1, hl2, hl3, hl4, hl5, ?_⟩
        intro g hg c hc
        simp only [List.mem_cons, List.not_mem_nil, or_false] at hg
        rcases hg with rfl | rfl | rfl | rfl | rfl
        · exact List.all_eq_true.mp hx1 c hc
        · exact List.all_eq_true.mp hx2 c hc
        · exact List.all_eq_true.mp hx3 c hc
        · exact List.all_eq_true.mp hx4 c hc
        · exact List.all_eq_true.mp hx5 c hc
      · rintro ⟨-, a, b, c, d, e, heq, hl1, hl2, hl3, hl4, hl5, hhex⟩
        obtain ⟨rfl, rfl, rfl, rfl, rfl⟩ :
            g1 = a ∧ g2 = b ∧ g3 = c ∧ g4 = d ∧ g5 = e := by
          simpa using heq
        simp only [List.zip_cons_cons, List.zip_nil_left, List.all_cons,
          List.all_nil, Bool.and_true, Bool.and_eq_true, decide_eq_true_eq]
        refine ⟨⟨hl1, ?_⟩, ⟨hl2, ?_⟩, ⟨hl3, ?_⟩, ⟨hl4, ?_⟩, ⟨hl5, ?_⟩⟩ <;>
          apply List.all_eq_true.mpr <;> intro x hx
        · exact hhex g1 (by simp) x hx
        · exact hhex g2 (by simp) x hx
        · exact hhex g3 (by simp) x hx
        · exact hhex g4 (by simp) x hx
        · exact hhex g5 (by simp) x hx
  unfold classify
  by_cases h : is_uuid s = true
  · rw [if_pos h]
    exact iff_of_true rfl (hiff.mp h)
  · rw [if_neg h]
    exact iff_of_false (by decide) (fun hsp => h (hiff.mpr hsp))

/-! ## Registry scan: ordering -/

/-- C6: the registry scan's result is sorted ascending by session name. -/
theorem find_local_sessions_sorted_by_name (st : RegistryState) :
    List.Pairwise (fun a b : LocalSession => a.name ≤ b.name)
      (find_local_sessions st) := by
  unfold find_local_sessions
  refine List.Pairwise.imp (fun h => of_decide_eq_true h)
    (List.sorted_mergeSort ?_ ?_ _)
  · intro a b c hab hbc
    exact decide_eq_true
      (le_trans (of_decide_eq_true hab) (of_decide_eq_true hbc))
  · intro a b
    rcases le_total a.name b.name with h | h
    · simp [h]
    · simp [h]

/-! ## Registry scan: structure of the produced entries -/

/-- A filename ending in `.pid` is never a socket filename. -/
theorem pid_record_ne_sock {f : Str} (n : Str)
    (h : (( ".pid").toList).isSuffixOf f = true) : f ≠ sockFileName n := by
  intro hf
  rw [List.isSuffixOf_iff_suffix] at h
  obtain ⟨t, ht⟩ := h
  have h1 : f.getLast? = some 'd' := by
    rw [← ht, List.getLast?_append]
    rfl
  have h2 : f.getLast? = some 'k' := by
    rw [hf]
    unfold sockFileName
    rw [List.getLast?_append]
    rfl
  rw [h1] at h2
  simp at h2

/-- `find?` ignores a spliced-in element the predicate rejects. -/
theorem find?_splice {α : Type} {p : α → Bool} {e : α} (l1 l2 : List α)
    (hpe : p e = false) :
    (l1 ++ e :: l2).find? p = (l1 ++ l2).find? p := by
  induction l1 with
  | nil =>
    simp only [List.nil_append]
    exact List.find?_cons_of_neg l2 (by simp [hpe])
  | cons a t ih =>
    simp only [List.cons_append]
    by_cases hpa : p a = true
    · rw [List.find?_cons_of_pos _ hpa, List.find?_cons_of_pos _ hpa]
    · rw [List.find?_cons_of_neg _ hpa, List.find?_cons_of_neg _ hpa]
      exact ih

/-- The scan's per-entry step only consults the socket oracle at socket
filenames, so two oracles that agree there produce the same entry. -/
theorem entryToSession_congr {al : Int → Bool} {s1 s2 : Str → Bool}
    (h : ∀ n, s1 (sockFileName n) = s2 (sockFileName n))
    (e : Str × Option Str) :
    entryToSession al s1 e = entryToSession al s2 e := by
  unfold entryToSession
  split
  · split
    · rfl
    · split
      · rfl
      · split
        · rfl
        · simp [h]
  · rfl

/-- A record filename with a nonempty extracted session name decomposes
as `agent-browser-<name>.pid`. -/
theorem record_file_decomp {f : Str} (hrec : isRecordFile f = true)
    (hn : recordNameOf f ≠ []) : f = pidFileName (recordNameOf f) := by
  have hab := hrec
  unfold isRecordFile at hab
  rw [Bool.and_eq_true] at hab
  obtain ⟨hpreB, hsufB⟩ := hab
  have hdp : dropPre? f (( "agent-browser-").toList) =
      some (f.drop (( "agent-browser-").toList).length) := by
    unfold dropPre?
    rw [if_pos hpreB]
  obtain ⟨m, hm⟩ := List.isPrefixOf_iff_prefix.mp hpreB
  have hdm : f.drop (( "agent-browser-").toList).length = m := by
    rw [← hm, List.drop_left]
  have hrn : recordNameOf f = (dropSuf? m (( ".pid").toList)).getD [] := by
    unfold recordNameOf
    rw [hdp, hdm]
    rfl
  by_cases hsm : (( ".pid").toList).isSuffixOf m = true
  · obtain ⟨u, hu⟩ := List.isSuffixOf_iff_suffix.mp hsm
    have hds : dropSuf? m (( ".pid").toList) = some u := by
      unfold dropSuf?
      rw [if_pos hsm]
      congr 1
      rw [← hu, List.length_append, Nat.add_sub_cancel]
      exact List.take_left u _
    rw [hrn, hds]
    unfold pidFileName
    rw [← hm, ← hu]
    rfl
  · exfalso
    apply hn
    rw [hrn]
    unfold dropSuf?
    rw [if_neg hsm]
    rfl

/-- What a successful per-entry scan step implies: the filename is the
liveness record of the reported session name, the name is nonempty, and
the content parsed to the reported pid. -/
theorem entryToSession_eq_some {al : Int → Bool} {sx : Str → Bool}
    {e : Str × Option Str} {sess : LocalSession}
    (h : entryToSession al sx e = some sess) :
    e.1 = pidFileName sess.name ∧ sess.name ≠ [] ∧
      ∃ c, e.2 = some c ∧ parseI32 (trimStr c) = some sess.pid := by
  unfold entryToSession at h
  by_cases hrec : isRecordFile e.1 = true
  · rw [if_pos hrec] at h
    by_cases hnm : recordNameOf e.1 = []
    · rw [if_pos hnm] at h
      exact absurd h (by simp)
    · rw [if_neg hnm] at h
      split at h
      · exact absurd h (by simp)
      · rename_i content hc
        split at h
        · exact absurd h (by simp)
        · rename_i pid hp
          have hs := Option.some.inj h
          rw [← hs]
          exact ⟨record_file_decomp hrec hnm, hnm, content, hc, hp⟩
  · rw [if_neg hrec] at h
    exact absurd h (by simp)

/-- Every reported session comes from some directory entry. -/
theorem mem_find_local_sessions {st : RegistryState} {sess : LocalSession}
    (h : sess ∈ find_local_sessions st) :
    ∃ e, e ∈ st.files ∧
      entryToSession st.alive (fun f => fileExists st f) e = some sess := by
  unfold find_local_sessions at h
  rw [(List.mergeSort_perm _ _).mem_iff] at h
  by_cases hd : st.dirReadable = true
  · rw [if_pos hd] at h
    obtain ⟨e, he, hes⟩ := List.mem_filterMap.mp h
    exact ⟨e, he, hes⟩
  · rw [if_neg hd] at h
    exact absurd h (List.not_mem_nil _)

/-- With no duplicate filenames, `find?` by filename pins down the one
entry carrying that filename. -/
theorem find?_key_unique {l : List (Str × Option Str)} {k : Str}
    {x e : Str × Option Str}
    (hnd : (l.map Prod.fst).Nodup)
    (hf : l.find? (fun q => q.1 == k) = some x)
    (he : e ∈ l) (hk : e.1 = k) : e = x := by
  induction l with
  | nil => exact absurd he (List.not_mem_nil _)
  | cons a t ih =>
    rw [List.map_cons, List.nodup_cons] at hnd
    by_cases hpa : ((fun q : Str × Option Str => q.1 == k) a) = true
    · rw [@List.find?_cons_of_pos _ (fun q => q.1 == k) a t hpa] at hf
      have hax := Option.some.inj hf
      rw [List.mem_cons] at he
      rcases he with rfl | he
      · exact hax
      · exfalso
        apply hnd.1
        have hak : a.1 = k := by simpa using hpa
        rw [hak, ← hk]
        exact List.mem_map_of_mem Prod.fst he
    · rw [@List.find?_cons_of_neg _ (fun q => q.1 == k) a t hpa] at hf
      rw [List.mem_cons] at he
      rcases he with rfl | he
      · exact absurd (by simp [hk]) hpa
      · exact ih hnd.2 hf he

/-- C8: a liveness record whose content does not parse is still
reported by statusOf — with pid substituted to 0 and `running` probed
at process id 0 — while the registry scan silently skips the very same
record. -/
theorem statusOf_unparsable_pid_zero
    (st : RegistryState) (name c : Str)
    (hnd : (st.files.map Prod.fst).Nodup)
    (hc : readFile st (pidFileName name) = some c)
    (hp : parseI32 (trimStr c) = none) :
    show_local_session_info st name =
      StatusResult.status name 0 (st.alive 0)
        (fileExists st (sockFileName name)) ∧
    ∀ sess ∈ find_local_sessions st, sess.name ≠ name := by
  refine ⟨by simp [show_local_session_info, readFile_isSome hc, hc, hp], ?_⟩
  intro sess hmem heq
  obtain ⟨e, hin, hsome⟩ := mem_find_local_sessions hmem
  obtain ⟨hkey, hne, c2, hc2, hp2⟩ := entryToSession_eq_some hsome
  rw [heq] at hkey
  unfold readFile findEntry at hc
  cases hfx : st.files.find? (fun q => q.1 == pidFileName name) with
  | none =>
    rw [hfx] at hc
    exact absurd hc (by simp)
  | some x =>
    rw [hfx] at hc
    have hxc : x.2 = some c := by simpa using hc
    have hex : e = x := find?_key_unique hnd hfx hin hkey
    rw [← hex] at hxc
    rw [hc2] at hxc
    have hcc : c2 = c := Option.some.inj hxc
    rw [hcc, hp] at hp2
    exact Option.noConfusion hp2

/-- C8 (witness): `agent-browser-foo.pid` holding the text `abc`. -/
theorem statusOf_unparsable_pid_zero_witness :
    show_local_session_info
      ⟨true, [((( "agent-browser-foo.pid")).toList, some (( "abc")).toList)],
        fun _ => true, fun _ => true⟩ (( "foo")).toList =
      StatusResult.status (( "foo")).toList 0 true false ∧
    ∀ sess ∈ find_local_sessions
      ⟨true, [((( "agent-browser-foo.pid")).toList, some (( "abc")).toList)],
        fun _ => true, fun _ => true⟩, sess.name ≠ (( "foo")).toList := by
  have h := statusOf_unparsable_pid_zero
    ⟨true, [((( "agent-browser-foo.pid")).toList, some (( "abc")).toList)],
      fun _ => true, fun _ => true⟩
    (( "foo")).toList (( "abc")).toList (by decide) (by decide) (by decide)
  refine ⟨?_, h.2⟩
  rw [h.1]
  decide

/-- C5: the registry scan never fails: an empty or unreadable registry
directory yields the empty list, and a liveness-record file whose
extracted session name is empty, whose content is unreadable, or whose
content does not parse as an integer is skipped without disturbing the
scan of the remaining entries. -/
theorem find_local_sessions_never_fails :
    (∀ st : RegistryState, st.files = [] → find_local_sessions st = []) ∧
    (∀ st : RegistryState, st.dirReadable = false →
      find_local_sessions st = []) ∧
    (∀ (dr : Bool) (l1 l2 : List (Str × Option Str)) (e : Str × Option Str)
        (al ts : Int → Bool),
      isRecordFile e.1 = true →
      (recordNameOf e.1 = [] ∨ e.2 = none ∨
        ∃ c, e.2 = some c ∧ parseI32 (trimStr c) = none) →
      find_local_sessions ⟨dr, l1 ++ e :: l2, al, ts⟩ =
        find_local_sessions ⟨dr, l1 ++ l2, al, ts⟩) := by
  refine ⟨?_, ?_, ?_⟩
  · intro st h
    unfold find_local_sessions
    rw [h]
    by_cases hd : st.dirReadable = true
    · rw [if_pos hd, List.filterMap_nil, List.mergeSort_nil]
    · rw [if_neg hd, List.mergeSort_nil]
  · intro st h
    unfold find_local_sessions
    rw [h]
    rw [if_neg (by simp), List.mergeSort_nil]
  · intro dr l1 l2 e al ts hrec hmal
    have hskip : ∀ sx : Str → Bool, entryToSession al sx e = none := by
      intro sx
      unfold entryToSession
      rw [if_pos hrec]
      rcases hmal with hn | hnone | ⟨c, hc, hp⟩
      · rw [if_pos hn]
      · by_cases hn : recordNameOf e.1 = []
        · rw [if_pos hn]
        · rw [if_neg hn, hnone]
      · by_cases hn : recordNameOf e.1 = []
        · rw [if_pos hn]
        · rw [if_neg hn, hc]
          simp [hp]
    have hsufB : (( ".pid").toList).isSuffixOf e.1 = true := by
      have hab := hrec
      unfold isRecordFile at hab
      rw [Bool.and_eq_true] at hab
      exact hab.2
    have hsock : ∀ n,
        fileExists ⟨dr, l1 ++ e :: l2, al, ts⟩ (sockFileName n) =
          fileExists ⟨dr, l1 ++ l2, al, ts⟩ (sockFileName n) := by
      intro n
      unfold fileExists findEntry
      rw [find?_splice l1 l2 (by simp [pid_record_ne_sock n hsufB])]
    have hfun : entryToSession al
        (fun f => fileExists ⟨dr, l1 ++ e :: l2, al, ts⟩ f) =
        entryToSession al
          (fun f => fileExists ⟨dr, l1 ++ l2, al, ts⟩ f) :=
      funext (entryToSession_congr hsock)
    unfold find_local_sessions
    by_cases hd : dr = true
    · rw [if_pos hd, if_pos hd]
      rw [show (⟨dr, l1 ++ e :: l2, al, ts⟩ : RegistryState).files =
        l1 ++ e :: l2 from rfl, show (⟨dr, l1 ++ l2, al, ts⟩ :
          RegistryState).files = l1 ++ l2 from rfl]
      rw [List.filterMap_append,
        List.filterMap_cons_none
          (hskip (fun f => fileExists ⟨dr, l1 ++ e :: l2, al, ts⟩ f)),
        ← List.filterMap_append, hfun]
    · rw [if_neg hd, if_neg hd]

/-- C5 (witness): the empty registry yields the empty list, and a
malformed record contributes nothing. -/
theorem find_local_sessions_never_fails_witness :
    find_local_sessions ⟨true, [], fun _ => false, fun _ => false⟩ = [] ∧
    find_local_sessions
      ⟨true, [((( "agent-browser-foo.pid")).toList, some (( "abc")).toList)],
        fun _ => false, fun _ => false⟩ =
      find_local_sessions ⟨true, [], fun _ => false, fun _ => false⟩ := by
  have h := find_local_sessions_never_fails
  refine ⟨h.1 ⟨true, [], fun _ => false, fun _ => false⟩ rfl, ?_⟩
  exact h.2.2 true [] []
    ((( "agent-browser-foo.pid")).toList, some (( "abc")).toList)
    (fun _ => false) (fun _ => false) (by decide)
    (Or.inr (Or.inr ⟨(( "abc")).toList, rfl, by decide⟩))
